import Mathlib

/- Verification of the off-chain payment protocol reference implementation
   (libra/off-chain-reference).  The development shallowly embeds the
   executor (both the legacy sync variant of executor.py and the async
   variant of offchainapi/executor.py), the per-channel protocol state
   machine of models.py, and the payment-processor logic of
   payment_logic.py / offchainapi/payment_logic.py, and proves or refutes
   the specification claims about them. -/

namespace OffChain

/-- Lookup in an association list: models a Python dict access `d[k]`
    returning the value bound to the key, or nothing.  The dicts of the
    source always have unique keys, so binding the first occurrence is
    faithful. -/
def lookupA {κ α : Type} [DecidableEq κ] (l : List (κ × α)) (k : κ) : Option α :=
  match l with
  | [] => none
  | p :: rest => if p.1 = k then some p.2 else lookupA rest k

/-- Key-membership test (Python `k in d`). -/
def containsA {κ α : Type} [DecidableEq κ] (l : List (κ × α)) (k : κ) : Bool :=
  (lookupA l k).isSome

/-- Insertion (Python `d[k] = a`): replace the binding if the key is
    present, otherwise append the new binding. -/
def insertA {κ α : Type} [DecidableEq κ] (l : List (κ × α)) (k : κ) (a : α) :
    List (κ × α) :=
  match l with
  | [] => [(k, a)]
  | p :: rest => if p.1 = k then (k, a) :: rest else p :: insertA rest k a

/-- Deletion (Python `del d[k]`; the sources check presence before use or
    rely on it, see the call sites).  Python dicts hold each key once, so
    dropping every binding of the key is faithful. -/
def eraseA {κ α : Type} [DecidableEq κ] (l : List (κ × α)) (k : κ) :
    List (κ × α) :=
  match l with
  | [] => []
  | p :: rest => if p.1 = k then eraseA rest k else p :: eraseA rest k

theorem lookupA_insertA_self {κ α : Type} [DecidableEq κ]
    (l : List (κ × α)) (k : κ) (a : α) :
    lookupA (insertA l k a) k = some a := by
  induction l with
  | nil => simp [insertA, lookupA]
  | cons p rest ih =>
      by_cases h : p.1 = k
      · simp [insertA, lookupA, h]
      · simp [insertA, lookupA, h, ih]

theorem lookupA_insertA_ne {κ α : Type} [DecidableEq κ]
    (l : List (κ × α)) (k u : κ) (a : α) (h : u ≠ k) :
    lookupA (insertA l k a) u = lookupA l u := by
  induction l with
  | nil => simp [insertA, lookupA, Ne.symm h]
  | cons p rest ih =>
      by_cases hp : p.1 = k
      · simp only [insertA, hp, if_true]
        rw [lookupA, lookupA]
        have hku : ¬ (k = u) := fun hh => h hh.symm
        simp [hp, hku]
      · simp only [insertA, hp, if_false]
        rw [lookupA, lookupA]
        by_cases hu : p.1 = u
        · simp [hu]
        · simp [hu, ih]

theorem containsA_insertA_self {κ α : Type} [DecidableEq κ]
    (l : List (κ × α)) (k : κ) (a : α) :
    containsA (insertA l k a) k = true := by
  simp [containsA, lookupA_insertA_self]

theorem lookupA_eq_none_of_not_mem {κ α : Type} [DecidableEq κ]
    (l : List (κ × α)) (k : κ) (h : k ∉ l.map Prod.fst) :
    lookupA l k = none := by
  induction l with
  | nil => rfl
  | cons p rest ih =>
      rw [lookupA]
      have hp : ¬ (p.1 = k) := by
        intro hh
        exact h (by simp [hh])
      simp only [hp, if_false]
      exact ih (fun hh => h (by simp [hh]))

theorem lookupA_eraseA_self {κ α : Type} [DecidableEq κ]
    (l : List (κ × α)) (k : κ) :
    lookupA (eraseA l k) k = none := by
  induction l with
  | nil => rfl
  | cons p rest ih =>
      by_cases h : p.1 = k
      · simp only [eraseA, h, if_true]
        exact ih
      · simp only [eraseA, h, if_false]
        rw [lookupA]
        simp only [h, if_false]
        exact ih

theorem lookupA_eraseA_ne {κ α : Type} [DecidableEq κ]
    (l : List (κ × α)) (k u : κ) (h : u ≠ k) :
    lookupA (eraseA l k) u = lookupA l u := by
  induction l with
  | nil => rfl
  | cons p rest ih =>
      by_cases hp : p.1 = k
      · simp only [eraseA, hp, if_true]
        rw [lookupA]
        have hpu : ¬ (p.1 = u) := by rw [hp]; exact fun hh => h hh.symm
        simp [hpu, ih]
      · simp only [eraseA, hp, if_false]
        rw [lookupA, lookupA]
        by_cases hu : p.1 = u
        · simp [hu]
        · simp [hu, ih]

theorem mem_insertA {κ α : Type} [DecidableEq κ]
    (l : List (κ × α)) (k : κ) (a : α) (p : κ × α)
    (hmem : p ∈ insertA l k a) : p = (k, a) ∨ p ∈ l := by
  induction l with
  | nil => simpa [insertA] using hmem
  | cons q rest ih =>
      by_cases hq : q.1 = k
      · simp only [insertA, hq, if_true] at hmem
        rcases List.mem_cons.mp hmem with h | h
        · exact Or.inl h
        · exact Or.inr (List.mem_cons.mpr (Or.inr h))
      · simp only [insertA, hq, if_false] at hmem
        rcases List.mem_cons.mp hmem with h | h
        · exact Or.inr (List.mem_cons.mpr (Or.inl h))
        · rcases ih h with h2 | h2
          · exact Or.inl h2
          · exact Or.inr (List.mem_cons.mpr (Or.inr h2))

theorem mem_eraseA {κ α : Type} [DecidableEq κ]
    (l : List (κ × α)) (k : κ) (p : κ × α)
    (hmem : p ∈ eraseA l k) : p ∈ l := by
  induction l with
  | nil =>
      simp only [eraseA] at hmem
      exact hmem
  | cons q rest ih =>
      by_cases hq : q.1 = k
      · simp only [eraseA, hq, if_true] at hmem
        exact List.mem_cons.mpr (Or.inr (ih hmem))
      · simp only [eraseA, hq, if_false] at hmem
        rcases List.mem_cons.mp hmem with h | h
        · exact List.mem_cons.mpr (Or.inl h)
        · exact List.mem_cons.mpr (Or.inr (ih h))

/-- Version identifiers (`get_unique_string` in the sources produces opaque
    unique ids; we model them as naturals). -/
abbrev Version := Nat

/-- The shared-object base data of executor.py / shared_object: the version,
    the versions it extends, and the two liveness flags. -/
structure SharedObject where
  version : Version
  extendsList : List Version
  potentially_live : Bool
  actually_live : Bool
deriving DecidableEq, Repr

/-- The executor's primary store, a dict from version numbers to shared
    objects. -/
abbrev Store := List (Version × SharedObject)

/-- `ProtocolExecutor.all_true` (both executor variants): every version is
    present in the store and its object satisfies the predicate. -/
def all_true (store : Store) (versions : List Version) (pred : SharedObject → Bool) :
    Bool :=
  versions.all (fun v =>
    match lookupA store v with
    | none => false
    | some obj => pred obj)

/-- The per-version store-update loop of `set_success` (both flags of each
    dependency in the async variant; the actually-live flag of each created
    version in the sync variant): look each version up, update it with `f`,
    write it back; a missing version raises KeyError, aborting the loop with
    the updates so far retained (second component false). -/
def updateAll (f : SharedObject → SharedObject) :
    List Version → Store → Store × Bool
  | [], store => (store, true)
  | v :: rest, store =>
      match lookupA store v with
      | none => (store, false)
      | some obj => updateAll f rest (insertA store v (f obj))

theorem updateAll_lookup (f : SharedObject → SharedObject)
    (vs : List Version) (store : Store)
    (hpres : ∀ v ∈ vs, containsA store v = true) (hnd : vs.Nodup) :
    (updateAll f vs store).2 = true ∧
    ∀ u, lookupA (updateAll f vs store).1 u =
      if u ∈ vs then (lookupA store u).map f else lookupA store u := by
  induction vs generalizing store with
  | nil => simp [updateAll]
  | cons v rest ih =>
      have hv : containsA store v = true := hpres v (List.mem_cons_self v rest)
      rcases Option.isSome_iff_exists.mp hv with ⟨obj, hobj⟩
      have hnd2 := List.nodup_cons.mp hnd
      have hpres2 : ∀ w ∈ rest, containsA (insertA store v (f obj)) w = true := by
        intro w hw
        have hwv : w ≠ v := fun hh => hnd2.1 (hh ▸ hw)
        rw [containsA, lookupA_insertA_ne store v w (f obj) hwv]
        exact hpres w (List.mem_cons_of_mem v hw)
      have ihh := ih (insertA store v (f obj)) hpres2 hnd2.2
      constructor
      · simp only [updateAll, hobj]
        exact ihh.1
      · intro u
        simp only [updateAll, hobj]
        rw [ihh.2 u]
        by_cases hu : u ∈ rest
        · have huv : u ≠ v := fun hh => hnd2.1 (hh ▸ hu)
          simp only [hu, if_true, List.mem_cons, hu, or_true, if_true]
          rw [lookupA_insertA_ne store v u (f obj) huv]
        · by_cases huv : u = v
          · subst huv
            simp only [hu, if_false, List.mem_cons, true_or, if_true]
            rw [lookupA_insertA_self, hobj]
            rfl
          · simp only [hu, if_false, List.mem_cons, huv, false_or, if_false]
            rw [lookupA_insertA_ne store v u (f obj) huv]

/-- The claim-C3 store invariant: every object in the store that is actually
    live is also potentially live. -/
def storeInv (store : Store) : Prop :=
  ∀ p ∈ store, p.2.actually_live = true → p.2.potentially_live = true

instance (store : Store) : Decidable (storeInv store) := by
  unfold storeInv
  infer_instance

theorem storeInv_insertA (store : Store) (v : Version) (obj : SharedObject)
    (hs : storeInv store) (ho : obj.actually_live = true → obj.potentially_live = true) :
    storeInv (insertA store v obj) := by
  intro p hp
  rcases mem_insertA store v obj p hp with h | h
  · subst h
    exact ho
  · exact hs p h

theorem storeInv_eraseA (store : Store) (v : Version) (hs : storeInv store) :
    storeInv (eraseA store v) :=
  fun p hp => hs p (mem_eraseA store v p hp)

theorem storeInv_updateAll (f : SharedObject → SharedObject)
    (hf : ∀ o, (f o).actually_live = true → (f o).potentially_live = true)
    (vs : List Version) (store : Store) (hs : storeInv store) :
    storeInv (updateAll f vs store).1 := by
  induction vs generalizing store with
  | nil => simpa [updateAll] using hs
  | cons v rest ih =>
      rw [updateAll]
      cases hobj : lookupA store v with
      | none => simpa using hs
      | some obj =>
          exact ih (insertA store v (f obj)) (storeInv_insertA store v (f obj) hs (hf obj))

/-- The creation loop of `sequence_next_command` (both variants): for each
    created version, instantiate the object via `get_object` (given the
    current store), force its potentially-live flag on, and insert it. -/
def insertCreates (getObject : Version → Store → SharedObject) :
    List Version → Store → Store
  | [], store => store
  | v :: rest, store =>
      let obj := getObject v store
      insertCreates getObject rest (insertA store v { obj with potentially_live := true })

theorem storeInv_insertCreates (getObject : Version → Store → SharedObject)
    (vs : List Version) (store : Store) (hs : storeInv store) :
    storeInv (insertCreates getObject vs store) := by
  induction vs generalizing store with
  | nil => simpa [insertCreates] using hs
  | cons v rest ih =>
      rw [insertCreates]
      apply ih
      apply storeInv_insertA store v _ hs
      intro _
      rfl

theorem insertCreates_lookup_not_mem (getObject : Version → Store → SharedObject)
    (vs : List Version) (store : Store) (u : Version) (hu : u ∉ vs) :
    lookupA (insertCreates getObject vs store) u = lookupA store u := by
  induction vs generalizing store with
  | nil => rfl
  | cons v rest ih =>
      rw [insertCreates]
      rw [ih _ (fun hh => hu (List.mem_cons_of_mem v hh))]
      exact lookupA_insertA_ne store v u _ (fun hh => hu (hh ▸ List.mem_cons_self v rest))

theorem insertCreates_lookup_mem (getObject : Version → Store → SharedObject)
    (vs : List Version) (store : Store) (hnd : vs.Nodup) :
    ∀ v ∈ vs, ∃ o, lookupA (insertCreates getObject vs store) v = some o ∧
      o.potentially_live = true := by
  induction vs generalizing store with
  | nil => intro v hv; cases hv
  | cons w rest ih =>
      intro v hv
      have hnd2 := List.nodup_cons.mp hnd
      rcases List.mem_cons.mp hv with h | h
      · subst h
        rw [insertCreates]
        rw [insertCreates_lookup_not_mem getObject rest _ v hnd2.1]
        exact ⟨_, lookupA_insertA_self store v _, rfl⟩
      · rw [insertCreates]
        exact ih _ hnd2.2 v h

/-- A protocol command in the async layout (offchainapi/executor.py):
    dependency versions, created versions, the commit status, and the origin
    address (Libra addresses are modelled as naturals). -/
structure ACommand where
  dependencies : List Version
  creates_versions : List Version
  commit_status : Option Bool
  origin : Nat
deriving DecidableEq, Repr

/-- The external behaviour the async executor dispatches to: the command
    processor's `check_command` (true when no exception is raised) and the
    command's `get_object`. -/
structure ACommandSem where
  checkOk : ACommand → Store → Bool
  getObject : ACommand → Version → Store → SharedObject

/-- The dependency-liveness predicate chosen by `sequence_next_command`
    (both variants): speculative `potentially_live` for our own commands,
    confirmed `actually_live` for the peer's. -/
def livenessPred (own : Bool) (o : SharedObject) : Bool :=
  if own then o.potentially_live else o.actually_live

/-- Result of one executor step: success, a failed `assert`, or a KeyError /
    IndexError raised by a dict or list access. -/
inductive StepStatus
  | ok
  | assertFail
  | keyError
deriving DecidableEq, Repr

namespace Async

/-- The async `ProtocolExecutor` state (offchainapi/executor.py): the shared
    command sequence, the last confirmed index, and the object store.  The
    `set_outcome` notification to the command processor is outside the
    executor state and not modelled here. -/
structure ProtocolExecutor where
  command_sequence : List ACommand
  last_confirmed : Nat
  object_store : Store
deriving DecidableEq, Repr

def next_seq (ex : ProtocolExecutor) : Nat := ex.command_sequence.length

/-- offchainapi/executor.py `sequence_next_command`: check dependency
    liveness with the own/peer predicate and run `check_command`; on success
    insert the created objects as potentially live; append the command when
    all is good or when errors are sequenced too (the `finally` block);
    `.err` stands for the raised `ExecutorException`. -/
def sequence_next_command (sem : ACommandSem) (myAddr : Nat)
    (ex : ProtocolExecutor) (command : ACommand)
    (do_not_sequence_errors : Bool) : ProtocolExecutor × Option Nat :=
  let dependencies := command.dependencies.dedup
  let own := command.origin == myAddr
  let all_good := all_true ex.object_store dependencies (livenessPred own)
      && sem.checkOk command ex.object_store
  if all_good then
    let store := insertCreates (sem.getObject command)
      command.creates_versions.dedup ex.object_store
    let pos := ex.command_sequence.length
    ({ ex with object_store := store,
               command_sequence := ex.command_sequence ++ [command] }, some pos)
  else if do_not_sequence_errors then (ex, none)
  else ({ ex with command_sequence := ex.command_sequence ++ [command] }, none)

/-- The dependency loop of the async `set_success`: clear both liveness
    flags of each dependency and write the object back (the version is NOT
    deleted from the store). -/
def clearFlags (o : SharedObject) : SharedObject :=
  { o with actually_live := false, potentially_live := false }

/-- The creates loop of the async `set_success`: set both liveness flags of
    each created version. -/
def liveFlags (o : SharedObject) : SharedObject :=
  { o with potentially_live := true, actually_live := true }

/-- offchainapi/executor.py `set_success`: assert the sequence number is the
    next to confirm, bump `last_confirmed`, clear both flags of each
    dependency, set both flags of each created version, and record the
    commit status on its first transition. -/
def set_success (ex : ProtocolExecutor) (seq_no : Nat) :
    ProtocolExecutor × StepStatus :=
  if seq_no ≠ ex.last_confirmed then (ex, .assertFail)
  else
    let ex1 := { ex with last_confirmed := ex.last_confirmed + 1 }
    match ex1.command_sequence.get? seq_no with
    | none => (ex1, .keyError)
    | some command =>
        let depsRes := updateAll clearFlags command.dependencies.dedup ex1.object_store
        let ex2 := { ex1 with object_store := depsRes.1 }
        if !depsRes.2 then (ex2, .keyError)
        else
          let newRes := updateAll liveFlags command.creates_versions.dedup ex2.object_store
          let ex3 := { ex2 with object_store := newRes.1 }
          if !newRes.2 then (ex3, .keyError)
          else if command.commit_status = none then
            ({ ex3 with command_sequence :=
                ex3.command_sequence.set seq_no { command with commit_status := some true } },
             .ok)
          else (ex3, .ok)

/-- offchainapi/executor.py `set_fail`: assert the sequence number is the
    next to confirm, bump `last_confirmed`, delete every created version
    still present from the store, and record the commit status on its first
    transition. -/
def set_fail (ex : ProtocolExecutor) (seq_no : Nat) :
    ProtocolExecutor × StepStatus :=
  if seq_no ≠ ex.last_confirmed then (ex, .assertFail)
  else
    let ex1 := { ex with last_confirmed := ex.last_confirmed + 1 }
    match ex1.command_sequence.get? seq_no with
    | none => (ex1, .keyError)
    | some command =>
        let store := command.creates_versions.dedup.foldl eraseA ex1.object_store
        let ex2 := { ex1 with object_store := store }
        if command.commit_status = none then
          ({ ex2 with command_sequence :=
              ex2.command_sequence.set seq_no { command with commit_status := some false } },
           .ok)
        else (ex2, .ok)

end Async

theorem storeInv_foldl_eraseA (vs : List Version) (store : Store)
    (hs : storeInv store) : storeInv (vs.foldl eraseA store) := by
  induction vs generalizing store with
  | nil => simpa using hs
  | cons v rest ih => exact ih _ (storeInv_eraseA store v hs)

/-- Executor used to check claims C2 on concrete data: one pending command
    consuming version 0 and creating version 1, both present in the store. -/
def exC2 : Async.ProtocolExecutor :=
  { command_sequence :=
      [{ dependencies := [0], creates_versions := [1],
         commit_status := none, origin := 7 }],
    last_confirmed := 0,
    object_store :=
      [(0, { version := 0, extendsList := [], potentially_live := true,
             actually_live := true }),
       (1, { version := 1, extendsList := [0], potentially_live := true,
             actually_live := false })] }

/-- C2 counterexample: after `set_success 0` on `exC2`, the dependency
    version 0 is still present in the async executor's object store — the
    code clears its liveness flags but does not remove it, contradicting the
    claim that each dependency version is removed from the store. -/
theorem counterexample_C2 :
    containsA (Async.set_success exC2 0).1.object_store 0 = true ∧
    lookupA (Async.set_success exC2 0).1.object_store 0 =
      some { version := 0, extendsList := [], potentially_live := false,
             actually_live := false } := by
  constructor
  · decide
  · decide

/-- C2 (amended): `set_success n` (async variant) requires
    `n = last_confirmed` (otherwise the assert fails and the state is
    unchanged) and then increments `last_confirmed`; for each dependency
    version of the command at `n` it clears both liveness flags but KEEPS
    the version in the object store; for each created version it sets
    `actually_live = true` and `potentially_live = true`. -/
theorem claim_C2 (ex : Async.ProtocolExecutor) (n : Nat) :
    (n ≠ ex.last_confirmed → Async.set_success ex n = (ex, .assertFail))
    ∧ (∀ cmd, n = ex.last_confirmed →
        ex.command_sequence.get? n = some cmd →
        (∀ v ∈ cmd.dependencies, containsA ex.object_store v = true) →
        (∀ v ∈ cmd.creates_versions, containsA ex.object_store v = true) →
        (∀ v ∈ cmd.dependencies, v ∉ cmd.creates_versions) →
        (Async.set_success ex n).1.last_confirmed = ex.last_confirmed + 1
        ∧ (∀ v ∈ cmd.dependencies,
            lookupA (Async.set_success ex n).1.object_store v =
              (lookupA ex.object_store v).map Async.clearFlags)
        ∧ (∀ v ∈ cmd.creates_versions,
            lookupA (Async.set_success ex n).1.object_store v =
              (lookupA ex.object_store v).map Async.liveFlags)) := by
  constructor
  · intro h
    unfold Async.set_success
    simp [h]
  · intro cmd hn hcmd hdeps hnew hdisj
    subst hn
    have hdep2 : ∀ v ∈ cmd.dependencies.dedup, containsA ex.object_store v = true := by
      intro v hv
      exact hdeps v (List.mem_dedup.mp hv)
    have hd := updateAll_lookup Async.clearFlags cmd.dependencies.dedup
      ex.object_store hdep2 cmd.dependencies.nodup_dedup
    have hnew2 : ∀ v ∈ cmd.creates_versions.dedup,
        containsA (updateAll Async.clearFlags cmd.dependencies.dedup ex.object_store).1 v
          = true := by
      intro v hv
      have hv2 := List.mem_dedup.mp hv
      have hnd : v ∉ cmd.dependencies.dedup := by
        intro hvd
        exact hdisj v (List.mem_dedup.mp hvd) hv2
      rw [containsA, hd.2 v, if_neg hnd]
      exact hnew v hv2
    have hc := updateAll_lookup Async.liveFlags cmd.creates_versions.dedup
      (updateAll Async.clearFlags cmd.dependencies.dedup ex.object_store).1 hnew2
      cmd.creates_versions.nodup_dedup
    have hres : (Async.set_success ex ex.last_confirmed).1.last_confirmed
          = ex.last_confirmed + 1
        ∧ (Async.set_success ex ex.last_confirmed).1.object_store =
          (updateAll Async.liveFlags cmd.creates_versions.dedup
            (updateAll Async.clearFlags cmd.dependencies.dedup ex.object_store).1).1 := by
      unfold Async.set_success
      rw [if_neg (by simp)]
      simp only [hcmd]
      simp only [hd.1, hc.1, Bool.not_true, Bool.false_eq_true, if_false]
      by_cases hcs : cmd.commit_status = none
      · simp [hcs]
      · simp [hcs]
    refine ⟨hres.1, ?_, ?_⟩
    · intro v hv
      rw [hres.2]
      have hvnotc : v ∉ cmd.creates_versions.dedup := by
        intro hvc
        exact hdisj v hv (List.mem_dedup.mp hvc)
      rw [hc.2 v, if_neg hvnotc, hd.2 v, if_pos (List.mem_dedup.mpr hv)]
    · intro v hv
      rw [hres.2]
      have hvnotd : v ∉ cmd.dependencies.dedup := by
        intro hvd
        exact hdisj v (List.mem_dedup.mp hvd) hv
      rw [hc.2 v, if_pos (List.mem_dedup.mpr hv), hd.2 v, if_neg hvnotd]

/-- C2 witness: the amended characterisation applied to the concrete
    executor `exC2`. -/
theorem claim_C2_witness :
    (Async.set_success exC2 0).1.last_confirmed = 1
    ∧ lookupA (Async.set_success exC2 0).1.object_store 0 =
        (lookupA exC2.object_store 0).map Async.clearFlags
    ∧ lookupA (Async.set_success exC2 0).1.object_store 1 =
        (lookupA exC2.object_store 1).map Async.liveFlags := by
  have h := (claim_C2 exC2 0).2
    { dependencies := [0], creates_versions := [1],
      commit_status := none, origin := 7 }
    (by decide) (by decide) (by decide) (by decide) (by decide)
  exact ⟨h.1, h.2.1 0 (by decide), h.2.2 1 (by decide)⟩

/-- C3: in the async executor, the store invariant
    `actually_live ⇒ potentially_live` holds for the empty initial store and
    is preserved by `sequence_next_command`, `set_success` and `set_fail`,
    for any command semantics. -/
theorem claim_C3 (sem : ACommandSem) (myAddr : Nat) :
    storeInv ([] : Store)
    ∧ (∀ ex cmd strict, storeInv ex.object_store →
        storeInv (Async.sequence_next_command sem myAddr ex cmd strict).1.object_store)
    ∧ (∀ ex n, storeInv ex.object_store →
        storeInv (Async.set_success ex n).1.object_store)
    ∧ (∀ ex n, storeInv ex.object_store →
        storeInv (Async.set_fail ex n).1.object_store) := by
  refine ⟨?_, ?_, ?_, ?_⟩
  · intro p hp
    cases hp
  · intro ex cmd strict hs
    unfold Async.sequence_next_command
    dsimp only
    by_cases hg : (all_true ex.object_store cmd.dependencies.dedup
        (livenessPred (cmd.origin == myAddr))
        && sem.checkOk cmd ex.object_store) = true
    · rw [if_pos hg]
      exact storeInv_insertCreates _ _ _ hs
    · rw [if_neg hg]
      by_cases hstrict : strict = true
      · rw [if_pos hstrict]
        exact hs
      · rw [if_neg hstrict]
        exact hs
  · intro ex n hs
    unfold Async.set_success
    split
    · exact hs
    · dsimp only
      split
      · exact hs
      · rename_i cmdc heq
        have h1 : storeInv
            (updateAll Async.clearFlags cmdc.dependencies.dedup ex.object_store).1 :=
          storeInv_updateAll Async.clearFlags
            (by intro o h; simp [Async.clearFlags] at h) _ _ hs
        split
        · exact h1
        · have h2 := storeInv_updateAll Async.liveFlags (fun o _ => rfl)
            cmdc.creates_versions.dedup _ h1
          split
          · exact h2
          · split
            · exact h2
            · exact h2
  · intro ex n hs
    unfold Async.set_fail
    split
    · exact hs
    · dsimp only
      split
      · exact hs
      · rename_i cmdc heq
        have h1 := storeInv_foldl_eraseA cmdc.creates_versions.dedup ex.object_store hs
        split
        · exact h1
        · exact h1

namespace Sync

/-- A protocol command in the sync layout (executor.py): the versions the
    command depends on, the versions it creates, and the opaque command
    payload (the payment diff record, compared by `PaymentCommand.__eq__`).
    The write-only `commit_status` attribute is never read in the sync code
    and is not modelled. -/
structure ProtocolCommand where
  depend_on : List Version
  creates : List Version
  command : Nat
deriving DecidableEq, Repr

/-- The behaviour the sync executor dispatches to on its commands: the
    `validity_checks(store, own)` predicate (true when no exception is
    raised) and `get_object(version, store)`. -/
structure CommandSem where
  validity : ProtocolCommand → Store → Bool → Bool
  getObject : ProtocolCommand → Version → Store → SharedObject

/-- The sync `ProtocolExecutor` state (executor.py): the command sequence,
    the last confirmed index, and the object store. -/
structure ProtocolExecutor where
  seq : List ProtocolCommand
  last_confirmed : Nat
  object_store : Store
deriving DecidableEq, Repr

def next_seq (ex : ProtocolExecutor) : Nat := ex.seq.length

/-- The `all_good` condition computed by the sync `sequence_next_command`:
    every dependency is present and live under the own/peer predicate, and
    the command's validity checks pass. -/
def checks_pass (sem : CommandSem) (ex : ProtocolExecutor)
    (command : ProtocolCommand) (own : Bool) : Bool :=
  all_true ex.object_store command.depend_on.dedup (livenessPred own)
    && sem.validity command ex.object_store own

/-- executor.py `sequence_next_command`: on failed checks with
    `do_not_sequence_errors` raise without appending; otherwise append the
    command, raising after the append when the checks failed (`none` is the
    raised `ExecutorCannotSequence`); on success insert the created objects
    as potentially live and return the position. -/
def sequence_next_command (sem : CommandSem) (ex : ProtocolExecutor)
    (command : ProtocolCommand) (do_not_sequence_errors own : Bool) :
    ProtocolExecutor × Option Nat :=
  let all_good := checks_pass sem ex command own
  if !all_good && do_not_sequence_errors then (ex, none)
  else
    let pos := ex.seq.length
    let ex1 := { ex with seq := ex.seq ++ [command] }
    if !all_good then (ex1, none)
    else
      let store := insertCreates (sem.getObject command) command.creates.dedup
        ex1.object_store
      ({ ex1 with object_store := store }, some pos)

/-- The dependency loop of the sync `set_success`: `del` each consumed
    version from the store; a missing version raises KeyError, aborting the
    loop with the deletions so far retained. -/
def deleteDeps : List Version → Store → Store × Bool
  | [], store => (store, true)
  | v :: rest, store =>
      if containsA store v then deleteDeps rest (eraseA store v)
      else (store, false)

/-- executor.py `set_success`: assert the sequence number is the next to
    confirm, bump `last_confirmed`, delete every dependency from the store,
    and set `actually_live` on every created version. -/
def set_success (ex : ProtocolExecutor) (seq_no : Nat) :
    ProtocolExecutor × StepStatus :=
  if seq_no ≠ ex.last_confirmed then (ex, .assertFail)
  else
    let ex1 := { ex with last_confirmed := ex.last_confirmed + 1 }
    match ex1.seq.get? seq_no with
    | none => (ex1, .keyError)
    | some command =>
        let depsRes := deleteDeps command.depend_on.dedup ex1.object_store
        let ex2 := { ex1 with object_store := depsRes.1 }
        if !depsRes.2 then (ex2, .keyError)
        else
          let newRes := updateAll (fun o => { o with actually_live := true })
            command.creates.dedup ex2.object_store
          let ex3 := { ex2 with object_store := newRes.1 }
          if !newRes.2 then (ex3, .keyError) else (ex3, .ok)

/-- executor.py `set_fail`: assert the sequence number is the next to
    confirm, bump `last_confirmed`, and delete every created version still
    present from the store. -/
def set_fail (ex : ProtocolExecutor) (seq_no : Nat) :
    ProtocolExecutor × StepStatus :=
  if seq_no ≠ ex.last_confirmed then (ex, .assertFail)
  else
    let ex1 := { ex with last_confirmed := ex.last_confirmed + 1 }
    match ex1.seq.get? seq_no with
    | none => (ex1, .keyError)
    | some command =>
        ({ ex1 with object_store := command.creates.dedup.foldl eraseA ex1.object_store },
         .ok)

end Sync

/-- C5: in `sequence_next_command` (sync variant), a command whose
    dependency-liveness or validity checks fail is rejected without
    appending when `do_not_sequence_errors` is true, and is still appended
    at position `len(seq)` with an error signalled when it is false; a
    command passing all checks is appended and every created version is
    inserted as potentially live. -/
theorem claim_C5 (sem : Sync.CommandSem) (ex : Sync.ProtocolExecutor)
    (cmd : Sync.ProtocolCommand) (own : Bool) :
    (Sync.checks_pass sem ex cmd own = false →
      Sync.sequence_next_command sem ex cmd true own = (ex, none))
    ∧ (Sync.checks_pass sem ex cmd own = false →
        (Sync.sequence_next_command sem ex cmd false own).1.seq = ex.seq ++ [cmd]
        ∧ (Sync.sequence_next_command sem ex cmd false own).2 = none)
    ∧ (Sync.checks_pass sem ex cmd own = true → ∀ strict,
        (Sync.sequence_next_command sem ex cmd strict own).1.seq = ex.seq ++ [cmd]
        ∧ (Sync.sequence_next_command sem ex cmd strict own).2 = some ex.seq.length
        ∧ ∀ v ∈ cmd.creates, ∃ o,
            lookupA (Sync.sequence_next_command sem ex cmd strict own).1.object_store v
              = some o
            ∧ o.potentially_live = true) := by
  refine ⟨?_, ?_, ?_⟩
  · intro h
    unfold Sync.sequence_next_command
    simp [h]
  · intro h
    unfold Sync.sequence_next_command
    simp [h]
  · intro h strict
    unfold Sync.sequence_next_command
    simp only [h, Bool.not_true, Bool.false_and, Bool.false_eq_true, if_false]
    refine ⟨by trivial, by trivial, ?_⟩
    intro v hv
    exact insertCreates_lookup_mem (sem.getObject cmd) cmd.creates.dedup _
      cmd.creates.nodup_dedup v (List.mem_dedup.mpr hv)

/-- C5 witness: a concrete failing command is rejected without appending in
    strict mode, and a concrete passing command is appended with its created
    version potentially live. -/
theorem claim_C5_witness :
    (Sync.sequence_next_command
        { validity := fun _ _ _ => false,
          getObject := fun _ v _ =>
            { version := v, extendsList := [], potentially_live := false,
              actually_live := false } }
        { seq := [], last_confirmed := 0, object_store := [] }
        { depend_on := [], creates := [5], command := 0 } true true
      = ({ seq := [], last_confirmed := 0, object_store := [] }, none))
    ∧ (Sync.sequence_next_command
        { validity := fun _ _ _ => true,
          getObject := fun _ v _ =>
            { version := v, extendsList := [], potentially_live := false,
              actually_live := false } }
        { seq := [], last_confirmed := 0, object_store := [] }
        { depend_on := [], creates := [5], command := 0 } true true).2
      = some 0 := by
  constructor
  · exact (claim_C5
      { validity := fun _ _ _ => false,
        getObject := fun _ v _ =>
          { version := v, extendsList := [], potentially_live := false,
            actually_live := false } }
      { seq := [], last_confirmed := 0, object_store := [] }
      { depend_on := [], creates := [5], command := 0 } true).1 (by decide)
  · exact ((claim_C5
      { validity := fun _ _ _ => true,
        getObject := fun _ v _ =>
          { version := v, extendsList := [], potentially_live := false,
            actually_live := false } }
      { seq := [], last_confirmed := 0, object_store := [] }
      { depend_on := [], creates := [5], command := 0 } true).2.2 (by decide) true).2.1

/-- `LibraAddress.last_bit` — addresses are opaque byte strings with a last
    bit and a total order (models.py gives only the abstract interface; we
    model addresses as naturals, `last_bit` as parity and
    `greater_than_or_equal` as the order on naturals). -/
def last_bit (a : Nat) : Nat := a % 2

/-- `LibraAddress.greater_than_or_equal`. -/
def greater_than_or_equal (a b : Nat) : Bool := decide (a ≥ b)

/-- models.py `VASPPairChannel.is_client`: xor the last bits of the two
    parent addresses; on 0 the local VASP is client iff its address is
    greater or equal, on 1 iff it is not (the bit is always 0 or 1, so the
    final unreachable assert is dropped). -/
def is_client (myself other : Nat) : Bool :=
  let bit := last_bit myself ^^^ last_bit other
  if bit == 0 then greater_than_or_equal myself other
  else !greater_than_or_equal myself other

/-- The protocol error codes of models.py, plus the command-failure marker
    used by `make_command_error` for a raised sequencing exception. -/
inductive ErrorCode
  | conflict
  | malformed
  | wait
  | missing
  | command_failure
deriving DecidableEq, Repr

/-- models.py `OffChainError`. -/
structure OffChainError where
  protocol_error : Bool
  code : ErrorCode
deriving DecidableEq, Repr

/-- The `status` field of a response (`success` / `failure`). -/
inductive RStatus
  | success
  | failure
deriving DecidableEq, Repr

/-- models.py `CommandResponseObject` (the `previous_command` attribute is
    attached dynamically on conflict responses). -/
structure CommandResponseObject where
  seq : Nat
  command_seq : Option Nat
  status : RStatus
  error : Option OffChainError
  previous_command : Option Sync.ProtocolCommand
deriving DecidableEq, Repr

/-- models.py `CommandRequestObject`: local sequence number, the optional
    server-assigned shared sequence number, the command, and the response
    once received. -/
structure CommandRequestObject where
  seq : Nat
  command_seq : Option Nat
  command : Sync.ProtocolCommand
  response : Option CommandResponseObject
deriving DecidableEq, Repr

def CommandRequestObject.has_response (r : CommandRequestObject) : Bool :=
  r.response.isSome

/-- models.py `CommandRequestObject.is_same_command`: equality of the
    commands. -/
def CommandRequestObject.is_same_command (r other : CommandRequestObject) : Bool :=
  r.command == other.command

def CommandRequestObject.is_success (r : CommandRequestObject) : Bool :=
  match r.response with
  | some resp => resp.status == RStatus.success
  | none => false

def make_success_response (request : CommandRequestObject) : CommandResponseObject :=
  { seq := request.seq, command_seq := none, status := .success, error := none,
    previous_command := none }

def make_protocol_error (request : CommandRequestObject) (code : ErrorCode) :
    CommandResponseObject :=
  { seq := request.seq, command_seq := none, status := .failure,
    error := some { protocol_error := true, code := code },
    previous_command := none }

def make_command_error (request : CommandRequestObject) (code : ErrorCode) :
    CommandResponseObject :=
  { seq := request.seq, command_seq := none, status := .failure,
    error := some { protocol_error := false, code := code },
    previous_command := none }

/-- models.py `VASPPairChannel` state: the two VASP parent addresses, the
    deferred peer requests, the two request queues with their counters, and
    the executor (the `persist`/`send_request`/`send_response` hooks are
    pass-through in the source; sends are returned as values here). -/
structure VASPPairChannel where
  myself : Nat
  other : Nat
  pending_requests : List CommandRequestObject
  my_requests : List CommandRequestObject
  my_next_seq : Nat
  other_requests : List CommandRequestObject
  other_next_seq : Nat
  executor : Sync.ProtocolExecutor
deriving DecidableEq, Repr

def VASPPairChannel.is_client_ch (c : VASPPairChannel) : Bool :=
  is_client c.myself c.other

def VASPPairChannel.is_server (c : VASPPairChannel) : Bool :=
  !c.is_client_ch

def VASPPairChannel.next_final_sequence (c : VASPPairChannel) : Nat :=
  Sync.next_seq c.executor

/-- models.py `VASPPairChannel.pending_responses`: the number of
    locally-proposed requests still without a response. -/
def VASPPairChannel.pending_responses (c : VASPPairChannel) : Nat :=
  (c.my_requests.filter (fun r => !r.has_response)).length

/-- models.py `VASPPairChannel.apply_response_to_executor`: apply the stored
    response of a request as a success or failure at its shared sequence
    position (a missing response or missing `command_seq` fails the
    asserts). -/
def apply_response_to_executor (ex : Sync.ProtocolExecutor)
    (request : CommandRequestObject) : Sync.ProtocolExecutor × StepStatus :=
  match request.response with
  | none => (ex, .assertFail)
  | some response =>
      match response.command_seq with
      | none => (ex, .assertFail)
      | some cs =>
          if request.is_success then Sync.set_success ex cs
          else Sync.set_fail ex cs

/-- The Python boolean
    `self.is_client() and request.command_seq > self.next_final_sequence()`:
    short-circuit on the server; on the client a `None` command sequence
    raises TypeError (`none` here). -/
def client_wait_check (c : VASPPairChannel) (request : CommandRequestObject) :
    Option Bool :=
  if c.is_client_ch then
    match request.command_seq with
    | none => none
    | some cs => some (decide (cs > c.next_final_sequence))
  else some false

/-- What one `handle_request` / drained pending request produced: a response
    passed to `send_response` (`.sent`; the retransmit path resends the
    stored response, which the model keeps optional), a deferral into
    `pending_requests` (`.queued`), or an uncaught assert / TypeError
    (`.crashed`). -/
inductive HandleOutcome
  | sent (resp : Option CommandResponseObject)
  | queued
  | crashed
deriving DecidableEq, Repr

/-- The in-order body of `handle_request` (request.seq equal to
    `other_next_seq`, no wait): advance the counter and store the request;
    assert a supplied shared sequence number matches the next slot
    (`.crashed` on failure); sequence the command non-strictly, build the
    success or command-error response stamped with the slot, store it on the
    request, and apply it to the executor in the same critical section. -/
def handle_request_inorder (sem : Sync.CommandSem) (c : VASPPairChannel)
    (request : CommandRequestObject) : VASPPairChannel × HandleOutcome :=
  if request.command_seq.isSome
      && !(request.command_seq == some c.next_final_sequence) then
    ({ c with other_next_seq := c.other_next_seq + 1,
              other_requests := c.other_requests ++ [request] }, .crashed)
  else
    let seqv := c.next_final_sequence
    let seqRes := Sync.sequence_next_command sem c.executor request.command
      false false
    let response0 := match seqRes.2 with
      | some _ => make_success_response request
      | none => make_command_error request .command_failure
    let response := { response0 with command_seq := some seqv }
    let request1 := { request with response := some response }
    let applyRes := apply_response_to_executor seqRes.1 request1
    let c1 := { c with other_next_seq := c.other_next_seq + 1,
                       other_requests := c.other_requests ++ [request1],
                       executor := applyRes.1 }
    match applyRes.2 with
    | .ok => (c1, .sent (some response))
    | _ => (c1, .crashed)

theorem handle_request_inorder_shape (sem : Sync.CommandSem)
    (c : VASPPairChannel) (request : CommandRequestObject) :
    (handle_request_inorder sem c request).1.my_requests = c.my_requests
    ∧ (handle_request_inorder sem c request).1.my_next_seq = c.my_next_seq
    ∧ (handle_request_inorder sem c request).1.other_requests.length
        = c.other_requests.length + 1
    ∧ (handle_request_inorder sem c request).1.other_next_seq
        = c.other_next_seq + 1 := by
  unfold handle_request_inorder
  split
  · exact ⟨rfl, rfl, by simp, rfl⟩
  · dsimp only
    split
    · exact ⟨rfl, rfl, by simp, rfl⟩
    · exact ⟨rfl, rfl, by simp, rfl⟩

/-- models.py `VASPPairChannel.handle_request`. -/
def handle_request (sem : Sync.CommandSem) (c : VASPPairChannel)
    (request : CommandRequestObject) : VASPPairChannel × HandleOutcome :=
  if request.seq < c.other_next_seq then
    -- Always answer old requests.
    match c.other_requests.get? request.seq with
    | none => (c, .crashed)
    | some previous_request =>
        if previous_request.is_same_command request then
          (c, .sent previous_request.response)
        else
          (c, .sent (some { make_protocol_error request .conflict with
                              previous_command := some previous_request.command }))
  else if c.is_server && request.command_seq.isSome then
    -- Clients are not to suggest sequence numbers.
    (c, .sent (some (make_protocol_error request .malformed)))
  else if c.is_server && decide (0 < c.pending_responses) then
    -- As a server, wait for the status of all server requests first.
    ({ c with pending_requests := c.pending_requests ++ [request] }, .queued)
  else if request.seq == c.other_next_seq then
    match client_wait_check c request with
    | none => (c, .crashed)
    | some true => (c, .sent (some (make_protocol_error request .wait)))
    | some false => handle_request_inorder sem c request
  else
    -- request.seq > other_next_seq: the previous request is missing.
    (c, .sent (some (make_protocol_error request .missing)))

/-- The drain loop of `process_pending_requests`, re-handling each deferred
    request in order (an uncaught exception aborts the loop; the responses
    that would be re-sent are not collected here). -/
def handleList (sem : Sync.CommandSem) (c : VASPPairChannel) :
    List CommandRequestObject → VASPPairChannel
  | [] => c
  | r :: rest =>
      match handle_request sem c r with
      | (c1, .crashed) => c1
      | (c1, _) => handleList sem c1 rest

/-- models.py `VASPPairChannel.process_pending_requests`: once no local
    proposal is waiting for a response, re-handle all deferred requests. -/
def process_pending_requests (sem : Sync.CommandSem) (c : VASPPairChannel) :
    VASPPairChannel :=
  if c.pending_responses == 0 then
    let requests := c.pending_requests
    handleList sem { c with pending_requests := [] } requests
  else c

/-- Outcome of `handle_response`. -/
inductive RespOutcome
  | ignored
  | applied
  | waitForMore
  | passed
  | crashed
deriving DecidableEq, Repr

/-- The body shared by the two applying branches of `handle_response`:
    store the response on the request, optionally sequence the command
    locally (with exceptions swallowed), apply the response to the
    executor, then drain pending requests. -/
def handle_response_apply (sem : Sync.CommandSem) (c : VASPPairChannel)
    (request_seq : Nat) (request : CommandRequestObject)
    (response : CommandResponseObject) (sequence_locally : Bool) :
    VASPPairChannel × RespOutcome :=
  let request1 := { request with response := some response }
  let c1 := { c with my_requests := c.my_requests.set request_seq request1 }
  let ex1 := if sequence_locally then
      (Sync.sequence_next_command sem c1.executor request1.command false true).1
    else c1.executor
  let applyRes := apply_response_to_executor ex1 request1
  let c2 := { c1 with executor := applyRes.1 }
  match applyRes.2 with
  | .ok => (process_pending_requests sem c2, .applied)
  | _ => (c2, .crashed)

/-- The success / non-protocol-failure branch of `handle_response`: a
    request that already has a response is ignored (idempotent
    re-delivery); a response for the next shared slot is sequenced locally
    then applied; one for an earlier slot is applied directly; one beyond
    the next slot is left for more data (a `None` shared sequence number
    raises TypeError on the `<` comparison). -/
def handle_response_success (sem : Sync.CommandSem) (c : VASPPairChannel)
    (request_seq : Nat) (response : CommandResponseObject) :
    VASPPairChannel × RespOutcome :=
  if (c.my_requests.get? request_seq).any (fun r => r.has_response) then
    (c, .ignored)
  else
    match c.my_requests.get? request_seq with
    | none => (c, .crashed)
    | some request =>
        match response.command_seq with
        | some cs =>
            if cs == c.next_final_sequence then
              handle_response_apply sem c request_seq request response true
            else if decide (cs < c.next_final_sequence) then
              handle_response_apply sem c request_seq request response false
            else (c, .waitForMore)
        | none => (c, .crashed)

/-- models.py `VASPPairChannel.handle_response`. -/
def handle_response (sem : Sync.CommandSem) (c : VASPPairChannel)
    (response : CommandResponseObject) : VASPPairChannel × RespOutcome :=
  let request_seq := response.seq
  if !(decide (request_seq < c.my_requests.length)) then (c, .ignored)
  else if decide (request_seq > 0)
      && !((c.my_requests.get? (request_seq - 1)).any (fun r => r.has_response)) then
    (c, .ignored)
  else
    match response.status, response.error with
    | .failure, some err =>
        if err.protocol_error then
          match err.code with
          | .missing => (c, .passed)
          | .wait => (c, .passed)
          | .malformed => (c, .passed)
          | _ => (c, .crashed)
        else
          handle_response_success sem c request_seq response
    | .failure, none => (c, .crashed)
    | .success, _ => handle_response_success sem c request_seq response

/-- models.py `VASPPairChannel.sequence_command_local`: build the request at
    the local sequence number; a server assigns the shared sequence slot and
    sequences speculatively in strict mode — a raised
    `ExecutorCannotSequence` propagates before any channel mutation (`none`);
    otherwise the counter advances, the request is stored and sent. -/
def sequence_command_local (sem : Sync.CommandSem) (c : VASPPairChannel)
    (off_chain_command : Sync.ProtocolCommand) :
    VASPPairChannel × Option CommandRequestObject :=
  let request : CommandRequestObject :=
    { seq := c.my_next_seq, command_seq := none, command := off_chain_command,
      response := none }
  if c.is_server then
    let request := { request with command_seq := some c.next_final_sequence }
    let seqRes := Sync.sequence_next_command sem c.executor off_chain_command true true
    match seqRes.2 with
    | none => ({ c with executor := seqRes.1 }, none)
    | some _ =>
        ({ c with executor := seqRes.1,
                  my_next_seq := c.my_next_seq + 1,
                  my_requests := c.my_requests ++ [request] }, some request)
  else
    ({ c with my_next_seq := c.my_next_seq + 1,
              my_requests := c.my_requests ++ [request] }, some request)

/-- models.py `VASPPairChannel.retransmit`: re-send the earliest request
    without a response; the channel state is untouched. -/
def retransmit (c : VASPPairChannel) :
    VASPPairChannel × Option CommandRequestObject :=
  (c, c.my_requests.find? (fun r => !r.has_response))

/-- models.py `VASPPairChannel.would_retransmit`. -/
def would_retransmit (c : VASPPairChannel) : Bool :=
  c.my_requests.any (fun r => !r.has_response)

/-- models.py `VASPPairChannel.__init__`: empty queues, zero counters, a
    fresh executor. -/
def initChannel (myself other : Nat) : VASPPairChannel :=
  { myself := myself, other := other, pending_requests := [],
    my_requests := [], my_next_seq := 0,
    other_requests := [], other_next_seq := 0,
    executor := { seq := [], last_confirmed := 0, object_store := [] } }

/-- The implicit counter invariant of claim C9: each request queue is
    exactly as long as its next-sequence counter. -/
def channelInv (c : VASPPairChannel) : Prop :=
  c.my_requests.length = c.my_next_seq
  ∧ c.other_requests.length = c.other_next_seq

instance (c : VASPPairChannel) : Decidable (channelInv c) := by
  unfold channelInv
  infer_instance

theorem channelInv_handle_request (sem : Sync.CommandSem) (c : VASPPairChannel)
    (request : CommandRequestObject) (h : channelInv c) :
    channelInv (handle_request sem c request).1 := by
  obtain ⟨h1, h2⟩ := h
  have hio := handle_request_inorder_shape sem c request
  unfold handle_request
  repeat' split
  all_goals
    first
      | exact ⟨by simpa using h1, by simp [List.length_append, h2]⟩
      | exact ⟨by rw [hio.1, hio.2.1]; exact h1,
               by rw [hio.2.2.1, hio.2.2.2, h2]⟩

theorem channelInv_handleList (sem : Sync.CommandSem) (c : VASPPairChannel)
    (reqs : List CommandRequestObject) (h : channelInv c) :
    channelInv (handleList sem c reqs) := by
  induction reqs generalizing c with
  | nil => simpa [handleList] using h
  | cons r rest ih =>
      rw [handleList]
      have hr := channelInv_handle_request sem c r h
      rcases hh : handle_request sem c r with ⟨c1, out⟩
      rw [hh] at hr
      cases out
      · exact ih c1 hr
      · exact ih c1 hr
      · exact hr

theorem channelInv_process_pending_requests (sem : Sync.CommandSem)
    (c : VASPPairChannel) (h : channelInv c) :
    channelInv (process_pending_requests sem c) := by
  unfold process_pending_requests
  split
  · exact channelInv_handleList sem _ _ ⟨h.1, h.2⟩
  · exact h

theorem channelInv_handle_response_apply (sem : Sync.CommandSem)
    (c : VASPPairChannel) (request_seq : Nat) (request : CommandRequestObject)
    (response : CommandResponseObject) (sl : Bool) (h : channelInv c) :
    channelInv (handle_response_apply sem c request_seq request response sl).1 := by
  have hset : channelInv { c with my_requests :=
      (c.my_requests.set request_seq { request with response := some response }) } :=
    ⟨by simpa [List.length_set] using h.1, h.2⟩
  unfold handle_response_apply
  dsimp only
  split
  · exact channelInv_process_pending_requests sem _ hset
  · exact hset

theorem channelInv_handle_response_success (sem : Sync.CommandSem)
    (c : VASPPairChannel) (request_seq : Nat)
    (response : CommandResponseObject) (h : channelInv c) :
    channelInv (handle_response_success sem c request_seq response).1 := by
  unfold handle_response_success
  split
  · exact h
  · split
    · exact h
    · split
      · split
        · exact channelInv_handle_response_apply sem _ _ _ _ _ h
        · split
          · exact channelInv_handle_response_apply sem _ _ _ _ _ h
          · exact h
      · exact h

theorem channelInv_handle_response (sem : Sync.CommandSem)
    (c : VASPPairChannel) (response : CommandResponseObject) (h : channelInv c) :
    channelInv (handle_response sem c response).1 := by
  unfold handle_response
  dsimp only
  split
  · exact h
  · split
    · exact h
    · split
      · split
        · split
          · exact h
          · exact h
          · exact h
          · exact h
        · exact channelInv_handle_response_success sem _ _ _ h
      · exact h
      · exact channelInv_handle_response_success sem _ _ _ h

theorem channelInv_sequence_command_local (sem : Sync.CommandSem)
    (c : VASPPairChannel) (cmd : Sync.ProtocolCommand) (h : channelInv c) :
    channelInv (sequence_command_local sem c cmd).1 := by
  obtain ⟨h1, h2⟩ := h
  unfold sequence_command_local
  dsimp only
  by_cases hs : c.is_server = true
  · rw [if_pos hs]
    cases hres : (Sync.sequence_next_command sem c.executor cmd true true).2 with
    | none => exact ⟨h1, h2⟩
    | some p => exact ⟨by simp [List.length_append, h1], h2⟩
  · rw [if_neg hs]
    exact ⟨by simp [List.length_append, h1], h2⟩

/-- C9: the counter invariant `len(my_requests) = my_next_seq` and
    `len(other_requests) = other_next_seq` holds for a fresh channel and is
    preserved by `sequence_command_local`, `handle_request`,
    `handle_response`, `process_pending_requests` and `retransmit`; under it
    the retransmit-branch indexing `other_requests[request.seq]` of
    `handle_request` is in bounds. -/
theorem claim_C9 (sem : Sync.CommandSem) :
    (∀ myself other, channelInv (initChannel myself other))
    ∧ (∀ c cmd, channelInv c → channelInv (sequence_command_local sem c cmd).1)
    ∧ (∀ c r, channelInv c → channelInv (handle_request sem c r).1)
    ∧ (∀ c resp, channelInv c → channelInv (handle_response sem c resp).1)
    ∧ (∀ c, channelInv c → channelInv (process_pending_requests sem c))
    ∧ (∀ c, channelInv c → channelInv (retransmit c).1)
    ∧ (∀ c (r : CommandRequestObject), channelInv c → r.seq < c.other_next_seq →
        r.seq < c.other_requests.length) := by
  refine ⟨?_, ?_, ?_, ?_, ?_, ?_, ?_⟩
  · intro myself other
    exact ⟨rfl, rfl⟩
  · intro c cmd h
    exact channelInv_sequence_command_local sem c cmd h
  · intro c r h
    exact channelInv_handle_request sem c r h
  · intro c resp h
    exact channelInv_handle_response sem c resp h
  · intro c h
    exact channelInv_process_pending_requests sem c h
  · intro c h
    exact h
  · intro c r h hseq
    rw [h.2]
    exact hseq

/-- A trivial command semantics used for concrete witness channels. -/
def semW : Sync.CommandSem :=
  { validity := fun _ _ _ => true,
    getObject := fun _ v _ =>
      { version := v, extendsList := [], potentially_live := false,
        actually_live := false } }

/-- Channel used as concrete input for the C9 witness: one local proposal
    without a response and one handled peer request. -/
def chW9 : VASPPairChannel :=
  { myself := 0, other := 2, pending_requests := [],
    my_requests := [{ seq := 0, command_seq := some 0,
                      command := { depend_on := [], creates := [1], command := 0 },
                      response := none }],
    my_next_seq := 1,
    other_requests := [], other_next_seq := 0,
    executor := { seq := [{ depend_on := [], creates := [1], command := 0 }],
                  last_confirmed := 0, object_store := [] } }

/-- C9 witness: the invariant holds for the initial channel and is
    preserved by a concrete `handle_request` step on `chW9`. -/
theorem claim_C9_witness :
    channelInv (initChannel 0 2)
    ∧ channelInv (handle_request semW chW9
        { seq := 0, command_seq := none,
          command := { depend_on := [], creates := [2], command := 1 },
          response := none }).1 := by
  have h := claim_C9 semW
  exact ⟨h.1 0 2, h.2.2.1 chW9 _ (by decide)⟩

/-- C4: delivering to `handle_request` a retransmitted request (sequence
    number below `other_next_seq`, command identical to the stored one)
    resends exactly the previously stored response and leaves the whole
    channel state (queues, counters, executor and its store) unchanged; and
    delivering to `handle_response` a response whose request already has a
    stored response changes no channel state. -/
theorem claim_C4 (sem : Sync.CommandSem) (c : VASPPairChannel) :
    (∀ (request prev : CommandRequestObject),
      request.seq < c.other_next_seq →
      c.other_requests.get? request.seq = some prev →
      prev.is_same_command request = true →
      handle_request sem c request = (c, .sent prev.response))
    ∧ (∀ (response : CommandResponseObject) (req : CommandRequestObject),
        c.my_requests.get? response.seq = some req →
        req.has_response = true →
        (handle_response sem c response).1 = c) := by
  constructor
  · intro request prev h1 hget hsame
    unfold handle_request
    rw [if_pos h1]
    simp only [hget, hsame, if_true]
  · intro response req hget hresp
    unfold handle_response
    dsimp only
    split
    · rfl
    · split
      · rfl
      · split
        · split
          · split
            · rfl
            · rfl
            · rfl
            · rfl
          · unfold handle_response_success
            rw [if_pos (by rw [hget]; simp [hresp])]
        · rfl
        · unfold handle_response_success
          rw [if_pos (by rw [hget]; simp [hresp])]

/-- The stored command of the C4 witness channel. -/
def cmdW4 : Sync.ProtocolCommand := { depend_on := [], creates := [3], command := 9 }

/-- The stored (already answered) peer request of the C4 witness channel. -/
def reqW4 : CommandRequestObject :=
  { seq := 0, command_seq := none, command := cmdW4,
    response := some { seq := 0, command_seq := some 0, status := .success,
                       error := none, previous_command := none } }

/-- The stored (already answered) local request of the C4 witness channel. -/
def myReqW4 : CommandRequestObject :=
  { seq := 0, command_seq := some 0, command := cmdW4,
    response := some { seq := 0, command_seq := some 0, status := .success,
                       error := none, previous_command := none } }

/-- C4 witness channel: one answered peer request and one answered local
    request. -/
def cW4 : VASPPairChannel :=
  { myself := 0, other := 2, pending_requests := [],
    my_requests := [myReqW4], my_next_seq := 1,
    other_requests := [reqW4], other_next_seq := 1,
    executor := { seq := [cmdW4], last_confirmed := 1, object_store := [] } }

/-- C4 witness: a duplicate of the stored request gets the stored response
    with the channel unchanged, and a duplicate response delivery is a
    state no-op. -/
theorem claim_C4_witness :
    handle_request semW cW4
      { seq := 0, command_seq := none, command := cmdW4, response := none }
      = (cW4, .sent reqW4.response)
    ∧ (handle_response semW cW4
        { seq := 0, command_seq := some 0, status := .success, error := none,
          previous_command := none }).1 = cW4 := by
  refine ⟨(claim_C4 semW cW4).1
    { seq := 0, command_seq := none, command := cmdW4, response := none }
    reqW4 (by decide) (by decide) (by decide), ?_⟩
  exact (claim_C4 semW cW4).2
    { seq := 0, command_seq := some 0, status := .success, error := none,
      previous_command := none }
    myReqW4 (by decide) (by decide)

/-- C7: when the local VASP is server and at least one local proposal lacks
    a response, an in-order well-formed peer request is only deferred: it is
    appended to `pending_requests`, nothing is sent, and the counters,
    queues and executor are untouched; and `process_pending_requests`
    re-handles nothing while any local proposal still lacks a response. -/
theorem claim_C7 (sem : Sync.CommandSem) (c : VASPPairChannel)
    (request : CommandRequestObject) :
    (c.is_server = true →
      request.command_seq = none →
      0 < c.pending_responses →
      ¬ request.seq < c.other_next_seq →
      handle_request sem c request
        = ({ c with pending_requests := c.pending_requests ++ [request] }, .queued))
    ∧ (c.pending_responses ≠ 0 → process_pending_requests sem c = c) := by
  constructor
  · intro hserver hcs hpend hseq
    unfold handle_request
    rw [if_neg hseq]
    rw [if_neg (by simp [hcs])]
    rw [if_pos (by simp [hserver, hpend])]
  · intro h
    unfold process_pending_requests
    rw [if_neg (by simpa using h)]

/-- C7 witness: the deferral and the drain guard on the concrete server
    channel `chW9` (one unanswered local proposal). -/
theorem claim_C7_witness :
    handle_request semW chW9
        { seq := 0, command_seq := none,
          command := { depend_on := [], creates := [2], command := 1 },
          response := none }
      = ({ chW9 with pending_requests := chW9.pending_requests ++
            [{ seq := 0, command_seq := none,
               command := { depend_on := [], creates := [2], command := 1 },
               response := none }] }, .queued)
    ∧ process_pending_requests semW chW9 = chW9 := by
  have h := claim_C7 semW chW9
    { seq := 0, command_seq := none,
      command := { depend_on := [], creates := [2], command := 1 },
      response := none }
  exact ⟨h.1 (by decide) (by decide) (by decide) (by decide), h.2 (by decide)⟩

/-- Exactly one of two booleans is true. -/
def exactly_one (a b : Bool) : Prop :=
  (a = true ∧ b = false) ∨ (a = false ∧ b = true)

/-- C8 counterexample: for the pair of equal parent addresses (0, 0) the
    claim's consequence fails — `is_client` answers true on both
    evaluations, so it is not the case that exactly one of
    `is_client(A,B)` and `is_client(B,A)` is true. -/
theorem counterexample_C8 :
    ¬ exactly_one (is_client 0 0) (is_client 0 0) := by
  unfold exactly_one
  decide

/-- C8 (amended): `is_client` computes the xor of the parent addresses'
    last bits and returns the order test on 0 and its negation on 1; for
    every pair of DISTINCT parent addresses exactly one of the two
    evaluations answers true (for equal addresses both answer true). -/
theorem claim_C8 (a b : Nat) :
    is_client a b =
      (if (last_bit a ^^^ last_bit b) == 0 then greater_than_or_equal a b
       else !greater_than_or_equal a b)
    ∧ (a ≠ b → exactly_one (is_client a b) (is_client b a)) := by
  refine ⟨rfl, ?_⟩
  intro hne
  unfold exactly_one is_client greater_than_or_equal last_bit
  have hxc : (b % 2 ^^^ a % 2) = (a % 2 ^^^ b % 2) := Nat.xor_comm _ _
  by_cases hbit : ((a % 2 ^^^ b % 2) == 0) = true
  · rw [if_pos hbit, if_pos (by rw [hxc]; exact hbit)]
    rcases Nat.lt_or_ge a b with h | h
    · right
      exact ⟨decide_eq_false (by omega), decide_eq_true (by omega)⟩
    · left
      exact ⟨decide_eq_true (by omega), decide_eq_false (by omega)⟩
  · rw [if_neg hbit, if_neg (by rw [hxc]; exact hbit)]
    rcases Nat.lt_or_ge a b with h | h
    · left
      refine ⟨?_, ?_⟩
      · rw [decide_eq_false (by omega : ¬ a ≥ b)]
        rfl
      · rw [decide_eq_true (by omega : b ≥ a)]
        rfl
    · right
      refine ⟨?_, ?_⟩
      · rw [decide_eq_true (by omega : a ≥ b)]
        rfl
      · rw [decide_eq_false (by omega : ¬ b ≥ a)]
        rfl

/-- C8 witness: for the distinct addresses 0 and 1 exactly one evaluation
    answers client. -/
theorem claim_C8_witness :
    exactly_one (is_client 0 1) (is_client 1 0) :=
  (claim_C8 0 1).2 (by decide)

/-- The slice of a payment object the reference-id index update reads: its
    version (`get_version`) and its `reference_id`. -/
structure RefPayment where
  version : Nat
  reference_id : String
deriving DecidableEq, Repr

/-- The slice of a payment command the index update reads: the dependency
    versions (`get_dependencies`) and the payment the command carries
    (`get_payment(object_store)`). -/
structure RefCommand where
  dependencies : List Nat
  payment : RefPayment
deriving DecidableEq, Repr

/-- The processor's `reference_id_index` dict. -/
abbrev RefIdIndex := List (String × RefPayment)

/-- offchainapi/payment_logic.py
    `PaymentProcessor.store_latest_payment_by_ref_id`: a fresh reference id
    is inserted; an existing entry is replaced only when the indexed
    payment's version is among the command's dependencies, and is left
    unchanged otherwise. -/
def store_latest_payment_by_ref_id (idx : RefIdIndex) (command : RefCommand) :
    RefIdIndex :=
  let payment := command.payment
  let ref_id := payment.reference_id
  match lookupA idx ref_id with
  | some old =>
      if command.dependencies.contains old.version then
        insertA idx ref_id payment
      else idx
  | none => insertA idx ref_id payment

/-- C10: the reference-id index update rule — an absent reference id is
    inserted; a present one is replaced by the new payment exactly when the
    indexed payment's version is among the command's dependencies, and the
    whole index is left unchanged otherwise. -/
theorem claim_C10 (idx : RefIdIndex) (command : RefCommand) :
    (lookupA idx command.payment.reference_id = none →
      lookupA (store_latest_payment_by_ref_id idx command)
        command.payment.reference_id = some command.payment)
    ∧ (∀ old, lookupA idx command.payment.reference_id = some old →
        (command.dependencies.contains old.version = true →
          lookupA (store_latest_payment_by_ref_id idx command)
            command.payment.reference_id = some command.payment)
        ∧ (command.dependencies.contains old.version = false →
          store_latest_payment_by_ref_id idx command = idx)) := by
  constructor
  · intro h
    unfold store_latest_payment_by_ref_id
    simp only [h]
    exact lookupA_insertA_self idx command.payment.reference_id command.payment
  · intro old h
    constructor
    · intro hdep
      unfold store_latest_payment_by_ref_id
      simp only [h, hdep, if_true]
      exact lookupA_insertA_self idx command.payment.reference_id command.payment
    · intro hdep
      unfold store_latest_payment_by_ref_id
      simp only [h, hdep, Bool.false_eq_true, if_false]

/-- C10 witness: concrete insert, replace and keep cases. -/
theorem claim_C10_witness :
    lookupA (store_latest_payment_by_ref_id []
        { dependencies := [], payment := { version := 1, reference_id := "A_x" } })
      "A_x" = some { version := 1, reference_id := "A_x" }
    ∧ lookupA (store_latest_payment_by_ref_id
        [("A_x", { version := 1, reference_id := "A_x" })]
        { dependencies := [1], payment := { version := 2, reference_id := "A_x" } })
      "A_x" = some { version := 2, reference_id := "A_x" }
    ∧ store_latest_payment_by_ref_id
        [("A_x", { version := 1, reference_id := "A_x" })]
        { dependencies := [7], payment := { version := 2, reference_id := "A_x" } }
      = [("A_x", { version := 1, reference_id := "A_x" })] := by
  refine ⟨?_, ?_, ?_⟩
  · exact (claim_C10 []
      { dependencies := [], payment := { version := 1, reference_id := "A_x" } }).1
      (by decide)
  · exact ((claim_C10 [("A_x", { version := 1, reference_id := "A_x" })]
      { dependencies := [1], payment := { version := 2, reference_id := "A_x" } }).2
      { version := 1, reference_id := "A_x" } (by decide)).1 (by decide)
  · exact ((claim_C10 [("A_x", { version := 1, reference_id := "A_x" })]
      { dependencies := [7], payment := { version := 2, reference_id := "A_x" } }).2
      { version := 1, reference_id := "A_x" } (by decide)).2 (by decide)

/-- offchainapi/payment_logic.py `PaymentProcessor.command_unique_id`: the
    obligation key for a peer address string and a local sequence number. -/
def command_unique_id (other_str : String) (seq : Nat) : String :=
  other_str ++ "_" ++ toString seq

/-- The crash-recovery state of the payment processor: the
    `pending_commands` obligation dict (uid to the (address, seq) record)
    and the parallel `command_cache` dict (uid to the command). -/
structure ProcessorState where
  pending_commands : List (String × (String × Nat))
  command_cache : List (String × ACommand)
deriving DecidableEq, Repr

/-- `PaymentProcessor.persist_command_obligation`. -/
def persist_command_obligation (st : ProcessorState) (other_str : String)
    (seq : Nat) (command : ACommand) : ProcessorState :=
  { pending_commands :=
      insertA st.pending_commands (command_unique_id other_str seq) (other_str, seq),
    command_cache :=
      insertA st.command_cache (command_unique_id other_str seq) command }

/-- `PaymentProcessor.obligation_exists`. -/
def obligation_exists (st : ProcessorState) (other_str : String) (seq : Nat) :
    Bool :=
  containsA st.pending_commands (command_unique_id other_str seq)

/-- `PaymentProcessor.release_command_obligation` (the `del` is only called
    behind an existence check in `process_command_success_async`). -/
def release_command_obligation (st : ProcessorState) (other_str : String)
    (seq : Nat) : ProcessorState :=
  { pending_commands := eraseA st.pending_commands (command_unique_id other_str seq),
    command_cache := eraseA st.command_cache (command_unique_id other_str seq) }

/-- The outcome of the network send awaited by
    `process_command_success_async`: success, a raised `NetworkException`
    (a `ClientError` in `Aionet.send_request`), or task cancellation. -/
inductive NetSendResult
  | ok
  | networkError
  | cancelled
deriving DecidableEq, Repr

/-- How `process_command_success_async` returned. -/
inductive ProcessOutcome
  | noNetwork
  | noObligation
  | notOtherOrigin
  | doneNoChange
  | doneSubmitted
  | networkErrorCaught
  | cancelledRaised
  | processingError
deriving DecidableEq, Repr

/-- offchainapi/payment_logic.py
    `PaymentProcessor.process_command_success_async`, with the awaited
    collaborators supplied as oracle results: `payment_raises` (a generic
    exception from `payment_process_async`, caught by the catch-all
    handler), `has_changed` (whether the processed payment differs), and
    `send_result` (the outcome of `net.send_request`).  The channel
    submission `net.sequence_command` is local bookkeeping with no network
    I/O and is modelled as always succeeding; the atomic-writes block around
    it covers the submission and the release, not the send that follows. -/
def process_command_success_async (st : ProcessorState) (net_set : Bool)
    (other_str : String) (command : ACommand) (other_addr : Nat) (seq : Nat)
    (payment_raises : Bool) (has_changed : Bool) (send_result : NetSendResult) :
    ProcessorState × ProcessOutcome :=
  if !net_set then (st, .noNetwork)
  else if !(obligation_exists st other_str seq) then (st, .noObligation)
  else if command.origin == other_addr then
    if payment_raises then (st, .processingError)
    else if has_changed then
      -- atomic block: submit the follow-up request, then release.
      let st1 := if obligation_exists st other_str seq then
          release_command_obligation st other_str seq
        else st
      match send_result with
      | .ok =>
          -- the final release block finds the obligation already gone.
          let st2 := if obligation_exists st1 other_str seq then
              release_command_obligation st1 other_str seq
            else st1
          (st2, .doneSubmitted)
      | .networkError => (st1, .networkErrorCaught)
      | .cancelled => (st1, .cancelledRaised)
    else
      let st2 := if obligation_exists st other_str seq then
          release_command_obligation st other_str seq
        else st
      (st2, .doneNoChange)
  else
    let st2 := if obligation_exists st other_str seq then
        release_command_obligation st other_str seq
      else st
    (st2, .notOtherOrigin)

/-- Command and state used for the C6 counterexample and witness: one
    obligation for peer "AA" at local sequence 3. -/
def cmdC6 : ACommand :=
  { dependencies := [0], creates_versions := [1], commit_status := none,
    origin := 5 }

/-- Processor state holding exactly the obligation ("AA", 3). -/
def stC6 : ProcessorState :=
  persist_command_obligation
    { pending_commands := [], command_cache := [] } "AA" 3 cmdC6

/-- C6 counterexample: a `NetworkException` raised by the send leaves the
    obligation RELEASED, not intact — after the failed send the
    `pending_commands` entry for ("AA", 3) no longer exists, because the
    release happened atomically with the channel submission, before the
    send. -/
theorem counterexample_C6 :
    obligation_exists
      (process_command_success_async stC6 true "AA" cmdC6 5 3 false true
        .networkError).1 "AA" 3 = false
    ∧ (process_command_success_async stC6 true "AA" cmdC6 5 3 false true
        .networkError).2 = .networkErrorCaught := by
  constructor
  · decide
  · decide

/-- C6 (amended): when the processed payment has changed, the follow-up
    request is submitted via the channel and the obligation released
    atomically with that submission, BEFORE the network send; the
    obligation is therefore released whether the send succeeds, raises a
    `NetworkException` (which is caught), or is cancelled (which
    propagates) — retry of a lost request is driven by the channel's stored
    request, not by the obligation log. -/
theorem claim_C6 (st : ProcessorState) (other_str : String) (command : ACommand)
    (other_addr : Nat) (seq : Nat) (send_result : NetSendResult) :
    obligation_exists st other_str seq = true →
    command.origin = other_addr →
    obligation_exists
      (process_command_success_async st true other_str command other_addr seq
        false true send_result).1 other_str seq = false
    ∧ (send_result = .networkError →
        (process_command_success_async st true other_str command other_addr seq
          false true send_result).2 = .networkErrorCaught)
    ∧ (send_result = .ok →
        (process_command_success_async st true other_str command other_addr seq
          false true send_result).2 = .doneSubmitted) := by
  intro hobl horig
  have hrel : obligation_exists (release_command_obligation st other_str seq)
      other_str seq = false := by
    unfold obligation_exists release_command_obligation containsA
    rw [lookupA_eraseA_self]
    rfl
  have heq : process_command_success_async st true other_str command other_addr seq
      false true send_result
      = (release_command_obligation st other_str seq,
         match send_result with
         | .ok => .doneSubmitted
         | .networkError => .networkErrorCaught
         | .cancelled => .cancelledRaised) := by
    cases send_result
    all_goals
      unfold process_command_success_async
      simp [hobl, horig, hrel]
  refine ⟨by rw [heq]; exact hrel, ?_, ?_⟩
  · intro hs
    subst hs
    rw [heq]
  · intro hs
    subst hs
    rw [heq]

/-- C6 witness: the amended release behaviour on the concrete obligation
    state `stC6`, for both a successful and a failing send. -/
theorem claim_C6_witness :
    obligation_exists
      (process_command_success_async stC6 true "AA" cmdC6 5 3 false true
        .ok).1 "AA" 3 = false
    ∧ (process_command_success_async stC6 true "AA" cmdC6 5 3 false true
        .ok).2 = .doneSubmitted := by
  have h := claim_C6 stC6 "AA" cmdC6 5 3 .ok (by decide) (by decide)
  exact ⟨h.1, h.2.2 rfl⟩

/-- Modelled from the spec: the `Status` enumeration of status_logic.py,
    which is imported by the payment code but not included in the sources;
    §3 of the spec lists `none`, `needs_kyc_data`,
    `needs_recipient_signature`, `ready_for_settlement`, `settled`,
    `abort`.  The legacy sync payment logic additionally references
    `needs_stable_id`, included here so that that code can be embedded. -/
inductive Status
  | none
  | needs_stable_id
  | needs_kyc_data
  | needs_recipient_signature
  | ready_for_settlement
  | settled
  | abort
deriving DecidableEq, Repr

/-- The slice of a payment actor the sync payment processor reads and
    writes: the status and its optional attachments. -/
structure PaymentActorData where
  status : Status
  stable_id : Option String
  kyc_data : Option String
deriving DecidableEq, Repr

/-- The slice of a payment object the sync payment processor reads and
    writes (the version bookkeeping of `new_version` copies these fields
    unchanged and is not tracked). -/
structure PaymentData where
  sender : PaymentActorData
  receiver : PaymentActorData
  recipient_signature : Option String
deriving DecidableEq, Repr

/-- `payment.data[role]` for role picked by `is_recipient`. -/
def PaymentData.actor (p : PaymentData) (isReceiver : Bool) : PaymentActorData :=
  if isReceiver then p.receiver else p.sender

def PaymentData.setActor (p : PaymentData) (isReceiver : Bool)
    (a : PaymentActorData) : PaymentData :=
  if isReceiver then { p with receiver := a } else { p with sender := a }

/-- `payment.data[role].change_status(status)`. -/
def PaymentData.change_status (p : PaymentData) (isReceiver : Bool)
    (st : Status) : PaymentData :=
  p.setActor isReceiver { p.actor isReceiver with status := st }

/-- The exceptions the sync business context can raise into
    `payment_process` (`BusinessAsyncInterupt`, `BusinessForceAbort`). -/
inductive BizError
  | businessAsyncInterupt
  | businessForceAbort
deriving DecidableEq, Repr

/-- The sync `BusinessContext` capability: each callback is modelled as a
    function from the payment to a result or a raised exception. -/
structure BusinessSync where
  is_recipient : Bool
  check_account_existence : PaymentData → Except BizError Unit
  next_kyc_level_to_request : PaymentData → Except BizError Status
  next_kyc_to_provide : PaymentData → Except BizError (List Status)
  provide_stable_id : PaymentData → Except BizError String
  get_extended_kyc : PaymentData → Except BizError String
  get_recipient_signature : PaymentData → Except BizError String
  ready_for_settlement : PaymentData → Except BizError Bool
  has_settled : PaymentData → Except BizError Bool

/-- The try block of payment_logic.py (sync)
    `PaymentProcessor.payment_process`, transliterated: a raised business
    exception carries out the current status and the partially updated new
    payment at the raise point. -/
def payment_process_core (business : BusinessSync) (payment : PaymentData) :
    Except (BizError × Status × PaymentData) (Status × PaymentData) := do
  let is_receiver := business.is_recipient
  let other_status := (payment.actor (!is_receiver)).status
  let mut current := (payment.actor is_receiver).status
  let mut new_payment := payment
  if other_status = Status.abort then
    -- We set our status as abort.
    current := Status.abort
  if current = Status.none then
    match business.check_account_existence payment with
    | .ok _ => pure ()
    | .error e => throw (e, current, new_payment)
  if current = Status.none ∨ current = Status.needs_stable_id
      ∨ current = Status.needs_kyc_data
      ∨ current = Status.needs_recipient_signature then
    match business.next_kyc_level_to_request payment with
    | .ok next => current := next
    | .error e => throw (e, current, new_payment)
    let kyc_to_provide ← match business.next_kyc_to_provide payment with
      | .ok k => pure k
      | .error e => throw (e, current, new_payment)
    if Status.needs_stable_id ∈ kyc_to_provide then
      match business.provide_stable_id payment with
      | .ok sid =>
          let a := new_payment.actor is_receiver
          new_payment := new_payment.setActor is_receiver ({ a with stable_id := some sid })
      | .error e => throw (e, current, new_payment)
    if Status.needs_kyc_data ∈ kyc_to_provide then
      match business.get_extended_kyc payment with
      | .ok kyc =>
          let a := new_payment.actor is_receiver
          new_payment := new_payment.setActor is_receiver ({ a with kyc_data := some kyc })
      | .error e => throw (e, current, new_payment)
    if is_receiver ∧ other_status = Status.needs_recipient_signature then
      match business.get_recipient_signature payment with
      | .ok sig => new_payment := { new_payment with recipient_signature := some sig }
      | .error e => throw (e, current, new_payment)
  let ready ← match business.ready_for_settlement payment with
    | .ok r => pure r
    | .error e => throw (e, current, new_payment)
  if ready then
    current := Status.ready_for_settlement
  if current = Status.ready_for_settlement then
    match business.has_settled payment with
    | .ok hs => if hs then current := Status.settled
    | .error e => throw (e, current, new_payment)
  return (current, new_payment)

/-- payment_logic.py (sync) `PaymentProcessor.payment_process`: run the try
    block; on `BusinessAsyncInterupt` keep the current status (the callback
    registration does not affect the returned payment); on
    `BusinessForceAbort` set the status to abort UNCONDITIONALLY; the
    `finally` block writes the resulting status onto the local role's
    actor. -/
def payment_process (business : BusinessSync) (payment : PaymentData) :
    PaymentData :=
  match payment_process_core business payment with
  | .ok (current, np) => np.change_status business.is_recipient current
  | .error (.businessAsyncInterupt, current, np) =>
      np.change_status business.is_recipient current
  | .error (.businessForceAbort, _, np) =>
      np.change_status business.is_recipient Status.abort

/-- Business context whose `ready_for_settlement` callback raises
    `BusinessForceAbort` (a policy decision to abort), for the local VASP
    acting as receiver. -/
def bizC1 : BusinessSync :=
  { is_recipient := true,
    check_account_existence := fun _ => .ok (),
    next_kyc_level_to_request := fun _ => .ok Status.none,
    next_kyc_to_provide := fun _ => .ok [],
    provide_stable_id := fun _ => .ok "sid",
    get_extended_kyc := fun _ => .ok "kyc",
    get_recipient_signature := fun _ => .ok "sig",
    ready_for_settlement := fun _ => .error .businessForceAbort,
    has_settled := fun _ => .ok false }

/-- Payment whose local (receiver) side has already reached
    `ready_for_settlement` while the sender side has not aborted. -/
def paymentC1 : PaymentData :=
  { sender := { status := Status.needs_kyc_data, stable_id := none,
                kyc_data := none },
    receiver := { status := Status.ready_for_settlement, stable_id := none,
                  kyc_data := none },
    recipient_signature := none }

/-- C1: evaluation of the sync `payment_process` at the failing input — the
    local side starts at `ready_for_settlement` and the peer side is not
    `abort`, yet a `BusinessForceAbort` raised by the business callback
    makes the code return the local side as `abort` (its own comment says
    "We cannot abort once we said we are ready_for_settlement or beyond",
    and the async variant guards this with `can_change_status`). -/
theorem claim_C1 :
    paymentC1.receiver.status = Status.ready_for_settlement
    ∧ paymentC1.sender.status ≠ Status.abort
    ∧ (payment_process bizC1 paymentC1).receiver.status = Status.abort
    ∧ (payment_process bizC1 paymentC1).sender.status ≠ Status.abort := by
  refine ⟨rfl, by decide, by decide, by decide⟩

/-- Executor used for the C3 witness. -/
def exW3 : Async.ProtocolExecutor :=
  { command_sequence :=
      [{ dependencies := [0], creates_versions := [1],
         commit_status := none, origin := 7 }],
    last_confirmed := 0,
    object_store :=
      [(0, { version := 0, extendsList := [], potentially_live := true,
             actually_live := true })] }

/-- C3 witness: the invariant holds for `exW3` and is preserved by a
    concrete `set_success` step. -/
theorem claim_C3_witness :
    storeInv exW3.object_store ∧ storeInv (Async.set_success exW3 0).1.object_store := by
  have hinv : storeInv exW3.object_store := by decide
  exact ⟨hinv,
    (claim_C3 { checkOk := fun _ _ => true,
                getObject := fun _ v _ =>
                  { version := v, extendsList := [], potentially_live := false,
                    actually_live := false } } 7).2.2.1 exW3 0 hinv⟩

end OffChain
